import Mathlib

/-! Verification development for the portfolio performance ledger and
annualized-return (XIRR) engine of the trade-journal application.

The shallow embedding below follows `src/pages/monthly-performance.tsx`
line by line for everything that file contains (`initialMonthlyData`,
`computedData`, `handleSaveAddedWithdrawn`).  The collaborators that the
page imports but whose sources are not part of the repository snapshot
(`calcXIRR` from `utils/tradeCalculations`, the `useCapitalChanges` hook,
the `usePortfolio` context) are modelled from the specification; each such
definition carries a doc comment saying so. -/

namespace Journal

/-- A calendar date at day resolution.  `month` is 0-based, matching the
JavaScript `Date.getMonth` convention used throughout the source; `day`
is 1-based. -/
structure Date where
  year : Int
  month : Nat
  day : Nat
deriving DecidableEq, Repr

/-- Days since 1970-01-01 (the standard civil-calendar algorithm).  This is
the day-resolution value of JavaScript `Date.getTime`, so comparing
`toDays` values models the date comparisons the source performs on `Date`
objects. -/
def Date.toDays (dt : Date) : Int :=
  let mp : Int := (dt.month : Int) + 1
  let y : Int := if mp ≤ 2 then dt.year - 1 else dt.year
  let era : Int := Int.fdiv y 400
  let yoe : Int := y - era * 400
  let mShift : Int := if 2 < mp then mp - 3 else mp + 9
  let doy : Int := Int.fdiv (153 * mShift + 2) 5 + (dt.day : Int) - 1
  let doe : Int := yoe * 365 + Int.fdiv yoe 4 - Int.fdiv yoe 100 + doy
  era * 146097 + doe - 719468

/-- `a <= b` on JavaScript dates (via `getTime`), at day resolution. -/
def dateLe (a b : Date) : Bool := decide (a.toDays ≤ b.toDays)

/-- The first day of month `m` (0-based) of year `y`: the source's
`new Date(year, monthIndex, 1)`. -/
def firstOfMonth (y : Int) (m : Nat) : Date := ⟨y, m, 1⟩

/-- Position status of a trade.  `part` stands for the source's
`"Partial"` status. -/
inductive PosStatus
  | opened
  | closed
  | part
deriving DecidableEq, Repr

/-- A trade, with the fields the monthly-performance page reads.  The
source defends against missing numeric fields with `|| 0`; the model uses
total rational fields, which is the image of that defaulting. -/
structure Trade where
  date : Option Date
  positionStatus : PosStatus
  plRs : Rat
  stockMove : Rat
  rewardRisk : Rat
  holdingDays : Rat
deriving DecidableEq, Repr

/-- Deposit/withdrawal tag of a CapitalChange (source field `type`). -/
inductive ChangeType
  | deposit
  | withdrawal
deriving DecidableEq, Repr

/-- A persisted capital-change event.  `ctype` is the source's `type`
field; `amount` is the non-negative magnitude. -/
structure CapitalChange where
  id : Nat
  date : Date
  amount : Rat
  ctype : ChangeType
  description : String
deriving DecidableEq, Repr

/-- Signed contribution of a change to a cash-flow series:
`amount` if deposit, `-amount` if withdrawal. -/
def signedAmount (c : CapitalChange) : Rat :=
  match c.ctype with
  | .deposit => c.amount
  | .withdrawal => -c.amount

/-- One monthly portfolio-size override, keyed by (month, year). -/
structure SizeEntry where
  month : Nat
  year : Int
  size : Rat
deriving DecidableEq, Repr

/-- The mutable state the two mutation entry points write: the
CapitalChangeStore contents, the portfolio-size overrides (the
"anchor"), and the store's next fresh identifier. -/
structure LedgerState where
  changes : List CapitalChange
  sizes : List SizeEntry
  nextId : Nat
deriving DecidableEq, Repr

/-- The read-only inputs of one rendering pass: the trade list, the
selected year, the year's opening capital anchor (the source's
`yearlyStartingCapital` state, seeded from `getLatestPortfolioSize()`),
the fallback portfolio size the lookup returns when no override exists,
and legacy per-month aggregate deposits/withdrawals
(month, deposits, withdrawals). -/
structure Env where
  trades : List Trade
  selectedYear : Int
  yearlyStartingCapital : Rat
  defaultSize : Rat
  legacy : List (Nat × Rat × Rat)
deriving DecidableEq, Repr

/-- Modelled from the spec: `usePortfolio.getPortfolioSize(month, year)`
(the hook's source is absent from the snapshot).  Per the spec's
PortfolioSizeOverride data model, it returns the explicit override for
the month/year when one exists, else a fallback size. -/
def lookupSize (env : Env) (l : List SizeEntry) (m : Nat) (y : Int) : Rat :=
  match l.find? (fun e => decide (e.month = m) && decide (e.year = y)) with
  | some e => e.size
  | none => env.defaultSize

/-- Modelled from the spec: `usePortfolio.setPortfolioSize(value, month,
year)` — upserts the override for the month/year. -/
def upsertSize (l : List SizeEntry) (v : Rat) (m : Nat) (y : Int) : List SizeEntry :=
  if l.any (fun e => decide (e.month = m) && decide (e.year = y)) then
    l.map (fun e => if e.month = m ∧ e.year = y then { e with size := v } else e)
  else
    l ++ [⟨m, y, v⟩]

def getPortfolioSize (env : Env) (st : LedgerState) (m : Nat) (y : Int) : Rat :=
  lookupSize env st.sizes m y

def setPortfolioSize (st : LedgerState) (v : Rat) (m : Nat) (y : Int) : LedgerState :=
  { st with sizes := upsertSize st.sizes v m y }

/-- Modelled from the spec: `addCapitalChange` of the `useCapitalChanges`
hook — appends a new record under a fresh opaque identifier. -/
def addCapitalChange (st : LedgerState) (date : Date) (amount : Rat)
    (ctype : ChangeType) (description : String) : LedgerState :=
  { st with
    changes := st.changes ++
      [{ id := st.nextId, date := date, amount := amount, ctype := ctype,
         description := description }],
    nextId := st.nextId + 1 }

/-- Modelled from the spec: `updateCapitalChange` — replaces the record
matching `id`; silent no-op when the id is absent. -/
def updateCapitalChange (st : LedgerState) (c : CapitalChange) : LedgerState :=
  { st with changes := st.changes.map (fun o => if o.id = c.id then c else o) }

/-- Modelled from the spec: `deleteCapitalChange` — removes the matching
record; no-op if absent. -/
def deleteCapitalChange (st : LedgerState) (i : Nat) : LedgerState :=
  { st with changes := st.changes.filter (fun o => decide (o.id ≠ i)) }

/-- Sum of `f` over a list, used for the page's `reduce` aggregations. -/
def sumBy (f : α → Rat) (l : List α) : Rat := (l.map f).sum

/-- Trades of month `m` (0-based) of the selected year: the source filters
trades to the selected year (dropping trades without a date) and groups
them by calendar month. -/
def monthTrades (env : Env) (m : Nat) : List Trade :=
  env.trades.filter (fun t =>
    match t.date with
    | none => false
    | some d => decide (d.year = env.selectedYear) && decide (d.month = m))

/-- The CapitalChange records dated in month `m` of year `y` (the source's
`monthCapitalChanges` filter on `getMonth`/`getFullYear`). -/
def monthChanges (st : LedgerState) (m : Nat) (y : Int) : List CapitalChange :=
  st.changes.filter (fun c => decide (c.date.month = m) && decide (c.date.year = y))

/-- Modelled from the spec: the `startingCapital` field of the
`useCapitalChanges` hook's per-month record (the hook's source is absent).
Per the spec's MonthlyCapitalLedger algorithm, it prefers the
portfolio-size override for the month/year and otherwise uses the
external portfolio-size lookup — i.e. exactly `getPortfolioSize`. -/
def mcStartingCapital (env : Env) (st : LedgerState) (m : Nat) : Rat :=
  getPortfolioSize env st m env.selectedYear

/-- Modelled from the spec: the record's `realizedPL` — the sum of `plRs`
over trades of the month whose status is Closed or Partial. -/
def mcPl (env : Env) (m : Nat) : Rat :=
  sumBy Trade.plRs ((monthTrades env m).filter (fun t =>
    decide (t.positionStatus = PosStatus.closed) ||
      decide (t.positionStatus = PosStatus.part)))

/-- Legacy aggregate (deposits, withdrawals) supplied externally for a
month, used when the store holds no dated events for it. -/
def legacyFor (env : Env) (m : Nat) : Rat × Rat :=
  match env.legacy.find? (fun e => decide (e.1 = m)) with
  | some e => e.2
  | none => (0, 0)

/-- Modelled from the spec: the record's monthly `deposits` aggregate —
the sum of the store's deposit events for the month, falling back to the
legacy aggregate when the store has none. -/
def mcDeposits (env : Env) (st : LedgerState) (m : Nat) : Rat :=
  if monthChanges st m env.selectedYear = [] then (legacyFor env m).1
  else sumBy CapitalChange.amount
    ((monthChanges st m env.selectedYear).filter
      (fun c => decide (c.ctype = ChangeType.deposit)))

/-- Modelled from the spec: the record's monthly `withdrawals` aggregate. -/
def mcWithdrawals (env : Env) (st : LedgerState) (m : Nat) : Rat :=
  if monthChanges st m env.selectedYear = [] then (legacyFor env m).2
  else sumBy CapitalChange.amount
    ((monthChanges st m env.selectedYear).filter
      (fun c => decide (c.ctype = ChangeType.withdrawal)))

/-- Modelled from the spec: the record's `finalCapital`, maintained by the
ledger under its derived invariant
`finalCapital = startingCapital + realizedPL + deposits - withdrawals`. -/
def mcFinalCapital (env : Env) (st : LedgerState) (m : Nat) : Rat :=
  mcStartingCapital env st m + mcPl env m
    + mcDeposits env st m - mcWithdrawals env st m

/-- The source's `netAddedWithdrawn`: signed sum of the month's store
events, falling back to the record's `deposits - withdrawals` when the
month has no dated events. -/
def netAddedWithdrawn (env : Env) (st : LedgerState) (m : Nat) : Rat :=
  let mcc := monthChanges st m env.selectedYear
  if mcc = [] then mcDeposits env st m - mcWithdrawals env st m
  else sumBy signedAmount mcc

/-- The source's `adjustedStartingCapital`:
`monthCapital.startingCapital || getPortfolioSize(month, selectedYear)` —
JavaScript `||` falls through on 0. -/
def adjustedStartingCapital (env : Env) (st : LedgerState) (m : Nat) : Rat :=
  let s := mcStartingCapital env st m
  if s = 0 then getPortfolioSize env st m env.selectedYear else s

/-- A table-cell value: a number, or the `'-'` ("not applicable") marker
the source writes into trade-dependent statistics of empty months. -/
inductive Cell
  | num (q : Rat)
  | na
deriving DecidableEq, Repr

/-- One row of `initialMonthlyData`. -/
structure MonthRow where
  month : Nat
  addedWithdrawn : Rat
  startingCapital : Rat
  pl : Cell
  finalCapital : Rat
  trades : Cell
  winPercentage : Cell
  avgGain : Cell
  avgLoss : Cell
  avgRR : Cell
  avgHoldingDays : Cell
deriving DecidableEq, Repr

/-- The source's `initialMonthlyData` row for month `m` of the selected
year.  Note the source sets `finalCapital` to the number `0` (not `'-'`)
for months with zero trades, so the field is always numeric. -/
def initialMonthlyData (env : Env) (st : LedgerState) (m : Fin 12) : MonthRow :=
  let mts := monthTrades env m.val
  let tradesCount := mts.length
  let winTrades := mts.filter (fun t => decide (0 < t.plRs))
  let lossTrades := mts.filter (fun t => decide (t.plRs < 0))
  let winPercentage : Rat :=
    if 0 < tradesCount then ((winTrades.length : Rat) / (tradesCount : Rat)) * 100 else 0
  let avgGain : Rat :=
    if 0 < winTrades.length then sumBy Trade.stockMove winTrades / (winTrades.length : Rat) else 0
  let avgLoss : Rat :=
    if 0 < lossTrades.length then sumBy Trade.stockMove lossTrades / (lossTrades.length : Rat) else 0
  let avgRR : Rat :=
    if 0 < tradesCount then sumBy Trade.rewardRisk mts / (tradesCount : Rat) else 0
  let avgHoldingDays : Rat :=
    if 0 < tradesCount then sumBy Trade.holdingDays mts / (tradesCount : Rat) else 0
  { month := m.val
    addedWithdrawn := netAddedWithdrawn env st m.val
    startingCapital := adjustedStartingCapital env st m.val
    pl := if 0 < tradesCount then Cell.num (mcPl env m.val) else Cell.na
    finalCapital := if 0 < tradesCount then mcFinalCapital env st m.val else 0
    trades := if 0 < tradesCount then Cell.num (tradesCount : Rat) else Cell.na
    winPercentage := if 0 < tradesCount then Cell.num winPercentage else Cell.na
    avgGain := if 0 < tradesCount then Cell.num avgGain else Cell.na
    avgLoss := if 0 < tradesCount then Cell.num avgLoss else Cell.na
    avgRR := if 0 < tradesCount then Cell.num avgRR else Cell.na
    avgHoldingDays := if 0 < tradesCount then Cell.num avgHoldingDays else Cell.na }

/-- `initialMonthlyData[m].finalCapital`, as used by the return windows. -/
def finalCap (env : Env) (st : LedgerState) (m : Fin 12) : Rat :=
  (initialMonthlyData env st m).finalCapital

/-- The source's `relevantChanges` for month `m`: every store event dated
on or before the first day of month `m`, as signed (date, amount) pairs. -/
def relevantChanges (env : Env) (st : LedgerState) (m : Fin 12) : List (Date × Rat) :=
  (st.changes.filter (fun c =>
      dateLe c.date (firstOfMonth env.selectedYear m.val))).map
    (fun c => (c.date, signedAmount c))

/-- The argument tuple one `calcXIRR` call receives: the two boundary
valuations and the interim signed events. -/
structure XIRRArgs where
  startDate : Date
  startValue : Rat
  endDate : Date
  endValue : Rat
  changes : List (Date × Rat)
deriving DecidableEq, Repr

section Solver

open scoped Classical

/-- Modelled from the spec: the net present value the XIRRSolver zeroes —
`Σ amount_i / (1 + r) ^ (days_i / 365)` over (day-offset, amount) events
(`calcXIRR` lives in `utils/tradeCalculations`, absent from the
snapshot). -/
noncomputable def npv (events : List (Int × Rat)) (r : Real) : Real :=
  (events.map (fun e => (e.2 : Real) / (1 + r) ^ ((e.1 : Real) / 365))).sum

/-- Modelled from the spec: the analytic derivative of `npv` in `r`. -/
noncomputable def npvDeriv (events : List (Int × Rat)) (r : Real) : Real :=
  (events.map (fun e =>
    -((e.2 : Real) * ((e.1 : Real) / 365)) / (1 + r) ^ ((e.1 : Real) / 365 + 1))).sum

/-- Modelled from the spec: the Newton-Raphson loop — stop when `|f(r)|`
is below the absolute tolerance 1e-6, bail out to the sentinel 0 on a
degenerate derivative or an implausible iterate (`r ≤ -1`), and when the
iteration budget runs out keep the estimate only under a relaxed
tolerance. -/
noncomputable def newtonXIRR (events : List (Int × Rat)) : Nat → Real → Real
  | 0, r => if |npv events r| < (1 : Real) / 1000 then r else 0
  | n + 1, r =>
    if |npv events r| < (1 : Real) / 1000000 then r
    else if npvDeriv events r = 0 then 0
    else
      let r2 := r - npv events r / npvDeriv events r
      if r2 ≤ -1 then 0 else newtonXIRR events n r2

/-- All amounts share one sign (no sign change): the solver's degenerate
case with the explicit return-0 policy. -/
def sameSign (events : List (Int × Rat)) : Bool :=
  events.all (fun e => decide (0 ≤ e.2)) || events.all (fun e => decide (e.2 ≤ 0))

/-- Modelled from the spec: the XIRR solver over (day-offset, amount)
events — initial guess 0.1, at most 100 iterations, sentinel 0 for the
no-sign-change degenerate case. -/
noncomputable def calcXIRRcore (events : List (Int × Rat)) : Real :=
  if sameSign events then 0 else newtonXIRR events 100 ((1 : Real) / 10)

/-- Modelled from the spec: `calcXIRR(startDate, startValue, endDate,
endValue, changes)` — builds the cash-flow series with the initial
outflow `-startValue` at offset 0, the interim signed events at their
day offsets from the start date, and the final inflow `endValue`, and
solves it. -/
noncomputable def calcXIRR (a : XIRRArgs) : Real :=
  calcXIRRcore
    ((0, -a.startValue) ::
      (a.changes.map (fun c => (c.1.toDays - a.startDate.toDays, c.2)) ++
        [(a.endDate.toDays - a.startDate.toDays, a.endValue)]))

end Solver

/-- The argument tuple the source's YTD block hands `calcXIRR`: start =
Jan 1 of the selected year valued at `yearlyStartingCapital`, end = first
day of month `m` valued at that row's `finalCapital`, events =
`relevantChanges` (every store event dated on or before the end). -/
def ytdArgs (env : Env) (st : LedgerState) (m : Fin 12) : XIRRArgs :=
  { startDate := firstOfMonth env.selectedYear 0
    startValue := env.yearlyStartingCapital
    endDate := firstOfMonth env.selectedYear m.val
    endValue := finalCap env st m
    changes := relevantChanges env st m }

/-- The source's `xirrYTD` (displayed as `cagr`): computed only when the
row's starting capital is a nonzero number (both `typeof` number checks
always hold — the embedded fields are numeric), else 0. -/
noncomputable def cagr (env : Env) (st : LedgerState) (m : Fin 12) : Real :=
  if adjustedStartingCapital env st m.val ≠ 0 then calcXIRR (ytdArgs env st m) else 0

/-- The argument tuple the source's rolling `k`-month block hands
`calcXIRR`: start = first day of month `m - k` valued at that row's
`finalCapital`, end = first day of month `m` valued at this row's
`finalCapital`, events = `relevantChanges` further filtered to dates on
or after the start.  (Only evaluated under the source's guards, which
force `k ≤ m`.) -/
def rollingArgs (env : Env) (st : LedgerState) (k : Nat) (m : Fin 12) : XIRRArgs :=
  { startDate := firstOfMonth env.selectedYear (m.val - k)
    startValue := finalCap env st ⟨m.val - k, lt_of_le_of_lt (Nat.sub_le _ _) m.isLt⟩
    endDate := firstOfMonth env.selectedYear m.val
    endValue := finalCap env st m
    changes := (relevantChanges env st m).filter
      (fun c => dateLe (firstOfMonth env.selectedYear (m.val - k)) c.1) }

/-- The source's `xirr1M`: guarded by `i > 0 && initialMonthlyData[i-1] &&
typeof … === 'number'`; the array access is defined exactly when
`1 ≤ i`, and the `typeof` checks always hold on the numeric embedding. -/
noncomputable def xirr1M (env : Env) (st : LedgerState) (m : Fin 12) : Real :=
  if 1 ≤ m.val then calcXIRR (rollingArgs env st 1 m) else 0

/-- The source's `xirr3M`: guarded by `i >= 2 && initialMonthlyData[i-3]`;
the inner condition embeds the JavaScript truthiness of the array access,
which is `undefined` (falsy) for `i < 3`. -/
noncomputable def xirr3M (env : Env) (st : LedgerState) (m : Fin 12) : Real :=
  if 2 ≤ m.val then
    (if 3 ≤ m.val then calcXIRR (rollingArgs env st 3 m) else 0)
  else 0

/-- The source's `xirr6M`: guarded by `i >= 5 && initialMonthlyData[i-6]`. -/
noncomputable def xirr6M (env : Env) (st : LedgerState) (m : Fin 12) : Real :=
  if 5 ≤ m.val then
    (if 6 ≤ m.val then calcXIRR (rollingArgs env st 6 m) else 0)
  else 0

/-- The source's `xirr12M`: guarded by `i >= 11 && initialMonthlyData[i-12]`;
within a single year's 12-row array the access is never defined, so the
value is always the sentinel 0. -/
noncomputable def xirr12M (env : Env) (st : LedgerState) (m : Fin 12) : Real :=
  if 11 ≤ m.val then
    (if 12 ≤ m.val then calcXIRR (rollingArgs env st 12 m) else 0)
  else 0

/-- Result of the net-change edit entry point: either a synchronous
rejection carrying the human-readable reason and the untouched state, or
acceptance carrying the mutated state. -/
inductive SaveResult
  | rejected (reason : String) (st : LedgerState)
  | accepted (st : LedgerState)
deriving DecidableEq, Repr

/-- The state a save result leaves behind. -/
def SaveResult.state : SaveResult → LedgerState
  | .rejected _ st => st
  | .accepted st => st

/-- The validation message the source alerts when starting capital is not
yet positive. -/
def saveErrorMsg : String :=
  "Please set the Starting Capital before adding/withdrawing funds. Click on the Starting Capital field first to set it."

/-- The description the source writes on every edited change. -/
def editDescription : String := "Manual edit from performance table"

/-- The source's `handleSaveAddedWithdrawn(rowIndex, month, year)`, the
implementation of `setNetChange(month, year, value)`.  The UI-state
writes (`setEditingCell` / `setEditingValue`) are outside the ledger
state and are not modelled; the `isNaN` early return cannot fire on a
rational input, and `monthOrder.indexOf` always succeeds on `Fin 12`.
Note the source's final `else if (value === 0 && existingChange)` delete
branch is unreachable: a truthy `existingChange` is already consumed by
the first branch, so a zero edit of an existing change lands in the
update branch. -/
def handleSaveAddedWithdrawn (env : Env) (st : LedgerState) (m : Fin 12) (v : Rat) :
    SaveResult :=
  if adjustedStartingCapital env st m.val ≤ 0 then .rejected saveErrorMsg st
  else
    match st.changes.find? (fun c =>
        decide (c.date.year = env.selectedYear) && decide (c.date.month = m.val)) with
    | some existingChange =>
      SaveResult.accepted (updateCapitalChange
        (setPortfolioSize st
          (getPortfolioSize env st m.val env.selectedYear + (v - signedAmount existingChange))
          m.val env.selectedYear)
        { existingChange with
          amount := |v|
          ctype := if 0 ≤ v then ChangeType.deposit else ChangeType.withdrawal
          date := firstOfMonth env.selectedYear m.val
          description := editDescription })
    | none =>
      if v ≠ 0 then
        SaveResult.accepted (addCapitalChange
          (setPortfolioSize st (getPortfolioSize env st m.val env.selectedYear + v)
            m.val env.selectedYear)
          (firstOfMonth env.selectedYear m.val) |v|
          (if 0 ≤ v then ChangeType.deposit else ChangeType.withdrawal) editDescription)
      else SaveResult.accepted st

/-- The cash-flow series claim C5 describes for the rolling `k`-month
window: interim events are "exactly the CapitalChange records dated on or
after the boundary start" — with no upper date bound. -/
def claimRollingArgs (env : Env) (st : LedgerState) (k : Nat) (m : Fin 12) : XIRRArgs :=
  { startDate := firstOfMonth env.selectedYear (m.val - k)
    startValue := finalCap env st ⟨m.val - k, lt_of_le_of_lt (Nat.sub_le _ _) m.isLt⟩
    endDate := firstOfMonth env.selectedYear m.val
    endValue := finalCap env st m
    changes := (st.changes.filter
        (fun c => dateLe (firstOfMonth env.selectedYear (m.val - k)) c.date)).map
      (fun c => (c.date, signedAmount c)) }

/-- The amended rolling series: interim events are the CapitalChange
records dated on or after the boundary start AND on or before the
boundary end. -/
def amendedRollingArgs (env : Env) (st : LedgerState) (k : Nat) (m : Fin 12) : XIRRArgs :=
  { startDate := firstOfMonth env.selectedYear (m.val - k)
    startValue := finalCap env st ⟨m.val - k, lt_of_le_of_lt (Nat.sub_le _ _) m.isLt⟩
    endDate := firstOfMonth env.selectedYear m.val
    endValue := finalCap env st m
    changes := (st.changes.filter (fun c =>
        dateLe (firstOfMonth env.selectedYear (m.val - k)) c.date
          && dateLe c.date (firstOfMonth env.selectedYear m.val))).map
      (fun c => (c.date, signedAmount c)) }

/-- The cash-flow series claim C6 describes for the YTD window: start =
Jan 1 of the selected year valued at the year's opening capital anchor,
end = first day of month `m` valued at that row's `finalCapital`, events
= all CapitalChange records dated on or before the end (cumulative
history across years). -/
def claimYtdArgs (env : Env) (st : LedgerState) (m : Fin 12) : XIRRArgs :=
  { startDate := firstOfMonth env.selectedYear 0
    startValue := env.yearlyStartingCapital
    endDate := firstOfMonth env.selectedYear m.val
    endValue := finalCap env st m
    changes := (st.changes.filter (fun c =>
        dateLe c.date (firstOfMonth env.selectedYear m.val))).map
      (fun c => (c.date, signedAmount c)) }

/-- The full pure rendering pass over the 12 months: the rows. -/
def computeYearRows (env : Env) (st : LedgerState) : List MonthRow :=
  (List.finRange 12).map (initialMonthlyData env st)

/-- The full pure rendering pass over the 12 months: the derived YTD and
rolling returns. -/
noncomputable def computeYearReturns (env : Env) (st : LedgerState) :
    List (Real × Real × Real × Real × Real) :=
  (List.finRange 12).map (fun m =>
    (cagr env st m, xirr1M env st m, xirr3M env st m, xirr6M env st m, xirr12M env st m))

/-- Store well-formedness maintained by the CRUD operations: every stored
identifier is below the next fresh one. -/
def StoreWF (st : LedgerState) : Prop := ∀ c ∈ st.changes, c.id < st.nextId

instance (st : LedgerState) : Decidable (StoreWF st) :=
  inferInstanceAs (Decidable (∀ c ∈ st.changes, c.id < st.nextId))

/-- The row's `startingCapital` field, unfolded. -/
theorem row_startingCapital (env : Env) (st : LedgerState) (m : Fin 12) :
    (initialMonthlyData env st m).startingCapital = adjustedStartingCapital env st m.val :=
  rfl

/-- The row's `finalCapital` field, unfolded. -/
theorem row_finalCapital (env : Env) (st : LedgerState) (m : Fin 12) :
    (initialMonthlyData env st m).finalCapital =
      if 0 < (monthTrades env m.val).length then mcFinalCapital env st m.val else 0 :=
  rfl

/-- The row's `addedWithdrawn` field, unfolded. -/
theorem row_addedWithdrawn (env : Env) (st : LedgerState) (m : Fin 12) :
    (initialMonthlyData env st m).addedWithdrawn = netAddedWithdrawn env st m.val :=
  rfl

/-- The source's `||` fallback on the modelled ledger record collapses:
the record's starting capital is already the portfolio-size lookup. -/
theorem adjustedStartingCapital_eq (env : Env) (st : LedgerState) (m : Nat) :
    adjustedStartingCapital env st m = mcStartingCapital env st m := by
  show (if mcStartingCapital env st m = 0 then getPortfolioSize env st m env.selectedYear
      else mcStartingCapital env st m) = mcStartingCapital env st m
  split
  · rfl
  · rfl

/-- Signed sum of a change list = deposits sum - withdrawals sum. -/
theorem sumBy_signed (l : List CapitalChange) :
    sumBy signedAmount l =
      sumBy CapitalChange.amount
          (l.filter (fun c => decide (c.ctype = ChangeType.deposit)))
        - sumBy CapitalChange.amount
            (l.filter (fun c => decide (c.ctype = ChangeType.withdrawal))) := by
  induction l with
  | nil => simp [sumBy]
  | cons a t ih =>
    cases h : a.ctype with
    | deposit =>
      simp only [sumBy, List.map_cons, List.sum_cons, List.filter_cons, h] at ih ⊢
      simp [signedAmount, h, ih]
      try ring
    | withdrawal =>
      simp only [sumBy, List.map_cons, List.sum_cons, List.filter_cons, h] at ih ⊢
      simp [signedAmount, h, ih]
      try ring

/-- The row's net added/withdrawn figure always agrees with the record's
`deposits - withdrawals`. -/
theorem netAddedWithdrawn_eq (env : Env) (st : LedgerState) (m : Nat) :
    netAddedWithdrawn env st m = mcDeposits env st m - mcWithdrawals env st m := by
  unfold netAddedWithdrawn mcDeposits mcWithdrawals
  by_cases h : monthChanges st m env.selectedYear = []
  · simp [h]
  · simp [h, sumBy_signed]

/-- Concrete rendering inputs used by witnesses and counterexamples: one
Closed trade on 2024-01-15 with P/L 500, selected year 2024, opening
anchor and fallback portfolio size 10000 (the spec's boundary scenario). -/
def cenv : Env :=
  { trades := [{ date := some ⟨2024, 0, 15⟩, positionStatus := PosStatus.closed,
                 plRs := 500, stockMove := 5, rewardRisk := 2, holdingDays := 10 }]
    selectedYear := 2024
    yearlyStartingCapital := 10000
    defaultSize := 10000
    legacy := [] }

/-- Concrete empty ledger state. -/
def cst : LedgerState := { changes := [], sizes := [], nextId := 0 }

/-- Concrete state holding one deposit dated 2024-12-01. -/
def cstDec : LedgerState :=
  { changes := [{ id := 7, date := ⟨2024, 11, 1⟩, amount := 500,
                  ctype := ChangeType.deposit, description := "December deposit" }]
    sizes := []
    nextId := 8 }

/-- Concrete environment whose portfolio-size lookup yields 0 (no starting
capital established anywhere). -/
def cenvZero : Env := { cenv with defaultSize := 0 }

/-- C1: the claimed invariant
`finalCapital = startingCapital + realizedPL + deposits - withdrawals`
fails on the exposed rows for a month with zero trades: at February 2024
under `cenv` the row reports `finalCapital = 0` while
`startingCapital + realizedPL + deposits - withdrawals = 10000`, because
`initialMonthlyData` writes the literal `0` into `finalCapital` whenever
`tradesCount = 0`. -/
theorem c1_invariant_fails_feb :
    ¬ ((initialMonthlyData cenv cst 1).finalCapital =
        (initialMonthlyData cenv cst 1).startingCapital + mcPl cenv 1
          + (initialMonthlyData cenv cst 1).addedWithdrawn) := by
  have hfc : (initialMonthlyData cenv cst 1).finalCapital = 0 := by
    rw [row_finalCapital]
    simp [show monthTrades cenv 1 = [] by decide]
  have hsc : (initialMonthlyData cenv cst 1).startingCapital = 10000 := by
    rw [row_startingCapital, adjustedStartingCapital_eq]
    simp [mcStartingCapital, getPortfolioSize, lookupSize, cst, cenv]
  have hpl : mcPl cenv 1 = 0 := by
    simp [mcPl, show monthTrades cenv 1 = [] by decide, sumBy]
  have haw : (initialMonthlyData cenv cst 1).addedWithdrawn = 0 := by
    rw [row_addedWithdrawn, netAddedWithdrawn_eq]
    simp [mcDeposits, mcWithdrawals, monthChanges, cst, legacyFor, cenv]
  rw [hfc, hsc, hpl, haw]
  norm_num

/-- C1 (amended): for every month with at least one trade in the selected
year, the exposed row satisfies
`finalCapital = startingCapital + realizedPL + (deposits - withdrawals)`
exactly (the ledger record invariant survives the row transformation);
for zero-trade months the row's `finalCapital` is instead the literal 0. -/
theorem c1_invariant_traded (env : Env) (st : LedgerState) (m : Fin 12)
    (h : monthTrades env m.val ≠ []) :
    (initialMonthlyData env st m).finalCapital =
      (initialMonthlyData env st m).startingCapital + mcPl env m.val
        + (initialMonthlyData env st m).addedWithdrawn := by
  have hl : 0 < (monthTrades env m.val).length := List.length_pos.mpr h
  rw [row_finalCapital, row_startingCapital, row_addedWithdrawn, if_pos hl,
    adjustedStartingCapital_eq, netAddedWithdrawn_eq]
  unfold mcFinalCapital
  ring

/-- C1 witness: January 2024 under `cenv` has one trade, and the invariant
holds there (10500 = 10000 + 500 + 0). -/
theorem c1_invariant_traded_witness :
    (initialMonthlyData cenv cst 0).finalCapital =
      (initialMonthlyData cenv cst 0).startingCapital + mcPl cenv 0
        + (initialMonthlyData cenv cst 0).addedWithdrawn :=
  c1_invariant_traded cenv cst 0 (by decide)

/-- C2: whenever the month's starting capital is not positive, the
net-change edit is rejected synchronously with the human-readable
starting-capital message, and the returned state is exactly the input
state — the CapitalChangeStore contents and the portfolio-size anchor are
untouched. -/
theorem c2_reject_no_mutation (env : Env) (st : LedgerState) (m : Fin 12) (v : Rat)
    (h : ¬ 0 < adjustedStartingCapital env st m.val) :
    handleSaveAddedWithdrawn env st m v = SaveResult.rejected saveErrorMsg st
      ∧ saveErrorMsg ≠ "" := by
  refine ⟨?_, by decide⟩
  unfold handleSaveAddedWithdrawn
  rw [if_pos (not_lt.mp h)]

/-- C2 witness: with no portfolio size established anywhere (lookup 0),
an edit of month 3 by 250 is rejected and the state is unchanged. -/
theorem c2_reject_no_mutation_witness :
    handleSaveAddedWithdrawn cenvZero cst 3 250 = SaveResult.rejected saveErrorMsg cst
      ∧ saveErrorMsg ≠ "" :=
  c2_reject_no_mutation cenvZero cst 3 250 (by decide)

/-- C6: for every month whose (adjusted) starting capital is nonzero, the
YTD return the page computes is the XIRR of exactly the series the claim
describes: start = Jan 1 of the selected year valued at the year's
opening capital anchor, end = first day of the month valued at the row's
`finalCapital`, interim events = all CapitalChange records dated on or
before the end — the full store, cumulative across years. -/
theorem c6_ytd_series (env : Env) (st : LedgerState) (m : Fin 12)
    (h : adjustedStartingCapital env st m.val ≠ 0) :
    cagr env st m = calcXIRR (claimYtdArgs env st m) := by
  unfold cagr
  rw [if_pos h]
  rfl

/-- C6 witness: January 2024 under `cenv` (starting capital 10000 ≠ 0). -/
theorem c6_ytd_series_witness :
    cagr cenv cst 0 = calcXIRR (claimYtdArgs cenv cst 0) :=
  c6_ytd_series cenv cst 0 (by decide)

/-- C7: the claim that a zero-trade month's `finalCapital` is "neither
blanked nor zeroed out" fails: at February 2024 under `cenv` the row's
`finalCapital` is the literal 0 even though its starting capital is 10000
and the modelled ledger record's final capital is 10000. -/
theorem c7_finalCapital_zeroed_feb :
    (initialMonthlyData cenv cst 1).finalCapital = 0
      ∧ (initialMonthlyData cenv cst 1).startingCapital = 10000
      ∧ mcFinalCapital cenv cst 1 = 10000 := by
  refine ⟨?_, ?_, ?_⟩
  · rw [row_finalCapital]
    simp [show monthTrades cenv 1 = [] by decide]
  · rw [row_startingCapital, adjustedStartingCapital_eq]
    simp [mcStartingCapital, getPortfolioSize, lookupSize, cst, cenv]
  · have hpl : mcPl cenv 1 = 0 := by
      simp [mcPl, show monthTrades cenv 1 = [] by decide, sumBy]
    simp only [mcFinalCapital]
    rw [hpl]
    simp [mcStartingCapital, mcDeposits, mcWithdrawals, monthChanges,
      getPortfolioSize, lookupSize, legacyFor, cst, cenv]

/-- C7 (amended): a zero-trade month still carries a computed
`startingCapital`, and every trade-count-dependent statistic (trade
count, win percentage, average gain, average loss, average R:R, average
holding days, and the month's P/L) is the `'-'` ("not applicable") marker
rather than 0 — but the row's `finalCapital` is zeroed to the literal 0. -/
theorem c7_zero_trade_row (env : Env) (st : LedgerState) (m : Fin 12)
    (h : monthTrades env m.val = []) :
    (initialMonthlyData env st m).trades = Cell.na
      ∧ (initialMonthlyData env st m).winPercentage = Cell.na
      ∧ (initialMonthlyData env st m).avgGain = Cell.na
      ∧ (initialMonthlyData env st m).avgLoss = Cell.na
      ∧ (initialMonthlyData env st m).avgRR = Cell.na
      ∧ (initialMonthlyData env st m).avgHoldingDays = Cell.na
      ∧ (initialMonthlyData env st m).pl = Cell.na
      ∧ (initialMonthlyData env st m).startingCapital = adjustedStartingCapital env st m.val
      ∧ (initialMonthlyData env st m).finalCapital = 0 := by
  simp [initialMonthlyData, h]

/-- C7 witness: February 2024 under `cenv` has no trades. -/
theorem c7_zero_trade_row_witness :
    (initialMonthlyData cenv cst 1).trades = Cell.na
      ∧ (initialMonthlyData cenv cst 1).winPercentage = Cell.na
      ∧ (initialMonthlyData cenv cst 1).avgGain = Cell.na
      ∧ (initialMonthlyData cenv cst 1).avgLoss = Cell.na
      ∧ (initialMonthlyData cenv cst 1).avgRR = Cell.na
      ∧ (initialMonthlyData cenv cst 1).avgHoldingDays = Cell.na
      ∧ (initialMonthlyData cenv cst 1).pl = Cell.na
      ∧ (initialMonthlyData cenv cst 1).startingCapital = adjustedStartingCapital cenv cst 1
      ∧ (initialMonthlyData cenv cst 1).finalCapital = 0 :=
  c7_zero_trade_row cenv cst 1 (by decide)

/-- C8: the whole rendering pass — the 12 rows and all derived YTD and
rolling returns — is a pure function of the trade list, the
CapitalChangeStore contents, the portfolio-size overrides and the
selected year: two computations over equal inputs give identical
results. -/
theorem c8_deterministic (env1 env2 : Env) (st1 st2 : LedgerState)
    (henv : env1 = env2) (hst : st1 = st2) :
    computeYearRows env1 st1 = computeYearRows env2 st2
      ∧ computeYearReturns env1 st1 = computeYearReturns env2 st2 := by
  subst henv; subst hst; exact ⟨rfl, rfl⟩

/-- C8 witness: the concrete inputs, computed twice. -/
theorem c8_deterministic_witness :
    computeYearRows cenv cst = computeYearRows cenv cst
      ∧ computeYearReturns cenv cst = computeYearReturns cenv cst :=
  c8_deterministic cenv cenv cst cst rfl rfl

/-- Filtering the mapped (date, signed amount) pairs by a lower date bound
after having filtered the records by an upper date bound is the same as
filtering the records by the conjunction of the two bounds and mapping. -/
theorem filter_map_window (l : List CapitalChange) (d e : Date) :
    ((l.filter (fun c => dateLe c.date e)).map
        (fun c => (c.date, signedAmount c))).filter (fun c => dateLe d c.1)
      = (l.filter (fun c => dateLe d c.date && dateLe c.date e)).map
          (fun c => (c.date, signedAmount c)) := by
  induction l with
  | nil => rfl
  | cons a t ih =>
    cases hp : dateLe a.date e <;> cases hq : dateLe d a.date <;>
      simp [List.filter_cons, List.map_cons, hp, hq, ih]

/-- The series the source's rolling block hands the solver equals the
amended claimed series: interim events are the records dated within
the closed window [boundary start, boundary end]. -/
theorem rollingArgs_eq_amended (env : Env) (st : LedgerState) (k : Nat) (m : Fin 12) :
    rollingArgs env st k m = amendedRollingArgs env st k m := by
  unfold rollingArgs amendedRollingArgs relevantChanges
  rw [filter_map_window]

/-- C5: the claim's description of the interim events — "exactly the
CapitalChange records dated on or after the boundary start" — fails:
under `cstDec` (one deposit dated 2024-12-01) the 1-month window ending
at February 2024 hands the solver no interim events (the December record
is dated after the boundary end and was already excluded by the
`relevantChanges` upper cut), whereas the claimed series contains it. -/
theorem c5_events_differ :
    rollingArgs cenv cstDec 1 1 ≠ claimRollingArgs cenv cstDec 1 1 := by
  intro h
  have h2 : (rollingArgs cenv cstDec 1 1).changes = (claimRollingArgs cenv cstDec 1 1).changes :=
    congrArg XIRRArgs.changes h
  revert h2
  decide

/-- C5 (amended): each rolling `k`-month return (k ∈ {1, 3, 6, 12}) is 0
when `m - k < 0` within the year's 12-row array (in particular the
12-month return is always 0 there), and otherwise is the XIRR of the
series with boundary start the first day of month `m - k` valued at
`row[m-k].finalCapital`, boundary end the first day of month `m` valued
at `row[m].finalCapital`, and interim events exactly the CapitalChange
records dated on or after the boundary start AND on or before the
boundary end. -/
theorem c5_rolling_series (env : Env) (st : LedgerState) (m : Fin 12) :
    (m.val < 1 → xirr1M env st m = 0)
    ∧ (1 ≤ m.val → xirr1M env st m = calcXIRR (amendedRollingArgs env st 1 m))
    ∧ (m.val < 3 → xirr3M env st m = 0)
    ∧ (3 ≤ m.val → xirr3M env st m = calcXIRR (amendedRollingArgs env st 3 m))
    ∧ (m.val < 6 → xirr6M env st m = 0)
    ∧ (6 ≤ m.val → xirr6M env st m = calcXIRR (amendedRollingArgs env st 6 m))
    ∧ xirr12M env st m = 0 := by
  refine ⟨?_, ?_, ?_, ?_, ?_, ?_, ?_⟩
  · intro h
    unfold xirr1M
    rw [if_neg (by omega)]
  · intro h
    unfold xirr1M
    rw [if_pos h, rollingArgs_eq_amended]
  · intro h
    unfold xirr3M
    by_cases h2 : 2 ≤ m.val
    · rw [if_pos h2, if_neg (by omega)]
    · rw [if_neg h2]
  · intro h
    unfold xirr3M
    rw [if_pos (by omega), if_pos h, rollingArgs_eq_amended]
  · intro h
    unfold xirr6M
    by_cases h2 : 5 ≤ m.val
    · rw [if_pos h2, if_neg (by omega)]
    · rw [if_neg h2]
  · intro h
    unfold xirr6M
    rw [if_pos (by omega), if_pos h, rollingArgs_eq_amended]
  · unfold xirr12M
    have hm := m.isLt
    by_cases h2 : 11 ≤ m.val
    · rw [if_pos h2, if_neg (by omega)]
    · rw [if_neg h2]

/-- C5 witness: at July (index 6) the 1-month and 6-month windows are
computable, and at index 6 the 12-month window is 0. -/
theorem c5_rolling_series_witness :
    xirr1M cenv cst 6 = calcXIRR (amendedRollingArgs cenv cst 1 6)
      ∧ xirr6M cenv cst 6 = calcXIRR (amendedRollingArgs cenv cst 6 6)
      ∧ xirr12M cenv cst 6 = 0 :=
  ⟨(c5_rolling_series cenv cst 6).2.1 (by decide),
   (c5_rolling_series cenv cst 6).2.2.2.2.2.1 (by decide),
   (c5_rolling_series cenv cst 6).2.2.2.2.2.2⟩

/-- C10: every CapitalChange the net-change edit creates or updates — any
record of the resulting store that was not already in the input store —
is dated exactly the first day of the edited month/year. -/
theorem c10_edit_date (env : Env) (st : LedgerState) (m : Fin 12) (v : Rat)
    (c : CapitalChange)
    (hc : c ∈ ((handleSaveAddedWithdrawn env st m v).state).changes)
    (hold : c ∉ st.changes) :
    c.date = firstOfMonth env.selectedYear m.val := by
  unfold handleSaveAddedWithdrawn at hc
  by_cases h0 : adjustedStartingCapital env st m.val ≤ 0
  · rw [if_pos h0] at hc
    exact absurd hc hold
  · rw [if_neg h0] at hc
    cases hf : st.changes.find? (fun c =>
        decide (c.date.year = env.selectedYear) && decide (c.date.month = m.val)) with
    | some ex =>
      rw [hf] at hc
      simp only [updateCapitalChange, setPortfolioSize, SaveResult.state,
        List.mem_map] at hc
      obtain ⟨o, ho, heq⟩ := hc
      by_cases hid : o.id = ex.id
      · rw [if_pos hid] at heq
        rw [← heq]
      · rw [if_neg hid] at heq
        rw [← heq] at hold
        exact absurd ho hold
    | none =>
      rw [hf] at hc
      by_cases hv : v ≠ 0
      · rw [if_pos hv] at hc
        simp only [addCapitalChange, setPortfolioSize, SaveResult.state,
          List.mem_append, List.mem_singleton] at hc
        rcases hc with h1 | h2
        · exact absurd h1 hold
        · rw [h2]
      · rw [if_neg hv] at hc
        exact absurd hc hold

/-- Evaluation of one accepted creating edit on the concrete inputs. -/
theorem save_example :
    ((handleSaveAddedWithdrawn cenv cst 0 500).state).changes
      = [{ id := 0, date := ⟨2024, 0, 1⟩, amount := 500,
           ctype := ChangeType.deposit, description := editDescription }] := by
  unfold handleSaveAddedWithdrawn
  rw [if_neg]
  · norm_num [cst, cenv, List.find?, addCapitalChange, setPortfolioSize,
      SaveResult.state, firstOfMonth]
  · rw [adjustedStartingCapital_eq]
    norm_num [mcStartingCapital, getPortfolioSize, lookupSize, cst, cenv]

/-- Evaluation of the first half of C3's failing input: setting March
2024's net change to 500 on the concrete inputs creates the deposit
record and moves the anchor to 10500. -/
theorem c3_step1 :
    (handleSaveAddedWithdrawn cenv cst 2 500).state
      = { changes := [{ id := 0, date := ⟨2024, 2, 1⟩, amount := 500,
                        ctype := ChangeType.deposit, description := editDescription }]
          sizes := [⟨2, 2024, 10500⟩]
          nextId := 1 } := by
  unfold handleSaveAddedWithdrawn
  rw [if_neg]
  · rw [show ((2 : Fin 12) : Nat) = 2 from rfl]
    norm_num [cst, cenv, List.find?, addCapitalChange, setPortfolioSize, upsertSize,
      getPortfolioSize, lookupSize, SaveResult.state, firstOfMonth]
  · rw [adjustedStartingCapital_eq]
    norm_num [mcStartingCapital, getPortfolioSize, lookupSize, cst, cenv]

/-- C3: the failing round trip, executed on the code.  With starting
capital 10000 for March 2024, setting the net change to 500 and then to 0
does restore the portfolio-size anchor to 10000, but does NOT remove the
CapitalChange record: the zero edit of an existing change is captured by
the update branch — the source's `value === 0 && existingChange` delete
branch (whose own comment says "remove it") is unreachable behind
`if (existingChange)` — so a deposit record of amount 0 stays in the
store. -/
theorem c3_zero_edit_keeps_record :
    ((handleSaveAddedWithdrawn cenv
        ((handleSaveAddedWithdrawn cenv cst 2 500).state) 2 0).state).changes
      = [{ id := 0, date := ⟨2024, 2, 1⟩, amount := 0,
           ctype := ChangeType.deposit, description := editDescription }]
    ∧ getPortfolioSize cenv
        ((handleSaveAddedWithdrawn cenv
            ((handleSaveAddedWithdrawn cenv cst 2 500).state) 2 0).state) 2 2024
      = 10000 := by
  rw [c3_step1]
  unfold handleSaveAddedWithdrawn
  rw [if_neg]
  · rw [show ((2 : Fin 12) : Nat) = 2 from rfl]
    norm_num [List.find?, cenv, updateCapitalChange, setPortfolioSize, upsertSize,
      getPortfolioSize, lookupSize, SaveResult.state, firstOfMonth, signedAmount]
  · rw [adjustedStartingCapital_eq]
    norm_num [mcStartingCapital, getPortfolioSize, lookupSize, cenv, List.find?]

/-- C10 witness: the record the concrete edit creates is dated 2024-01-01,
the first day of the edited month. -/
theorem c10_edit_date_witness :
    ({ id := 0, date := ⟨2024, 0, 1⟩, amount := 500, ctype := ChangeType.deposit,
       description := editDescription } : CapitalChange).date
      = firstOfMonth cenv.selectedYear (0 : Fin 12).val :=
  c10_edit_date cenv cst 0 500 _
    (by rw [save_example]; exact List.mem_singleton.mpr rfl)
    (by simp [cst])

/-- A map that fixes every member is the identity. -/
theorem map_id_of_mem (l : List α) (f : α → α) (h : ∀ a ∈ l, f a = a) : l.map f = l := by
  induction l with
  | nil => rfl
  | cons a t ih =>
    rw [List.map_cons, h a (List.mem_cons_self a t),
      ih (fun x hx => h x (List.mem_cons_of_mem a hx))]

/-- After an upsert, some entry carries the upserted key. -/
theorem upsertSize_any (l : List SizeEntry) (v : Rat) (m : Nat) (y : Int) :
    (upsertSize l v m y).any (fun e => decide (e.month = m) && decide (e.year = y))
      = true := by
  unfold upsertSize
  by_cases h : l.any (fun e => decide (e.month = m) && decide (e.year = y)) = true
  · rw [if_pos h]
    rw [List.any_eq_true] at h ⊢
    obtain ⟨o, ho, hko⟩ := h
    simp only [Bool.and_eq_true, decide_eq_true_eq] at hko
    refine ⟨if o.month = m ∧ o.year = y then { o with size := v } else o,
      List.mem_map_of_mem _ ho, ?_⟩
    rw [if_pos hko]
    simp [hko.1, hko.2]
  · rw [if_neg h]
    rw [List.any_append]
    simp

/-- After an upsert, every entry carrying the key holds the upserted
value. -/
theorem upsertSize_key_size (l : List SizeEntry) (v : Rat) (m : Nat) (y : Int) :
    ∀ e ∈ upsertSize l v m y, e.month = m → e.year = y → e.size = v := by
  intro e he hm hy
  unfold upsertSize at he
  by_cases h : l.any (fun e => decide (e.month = m) && decide (e.year = y)) = true
  · rw [if_pos h] at he
    obtain ⟨o, ho, heq⟩ := List.mem_map.mp he
    by_cases hko : o.month = m ∧ o.year = y
    · rw [if_pos hko] at heq
      rw [← heq]
    · rw [if_neg hko] at heq
      subst heq
      exact absurd ⟨hm, hy⟩ hko
  · rw [if_neg h] at he
    rcases List.mem_append.mp he with h1 | h2
    · exact absurd (List.any_eq_true.mpr ⟨e, h1, by simp [hm, hy]⟩) h
    · rw [List.mem_singleton.mp h2]

/-- Reading the key just upserted yields the upserted value. -/
theorem lookupSize_upsertSize (env : Env) (l : List SizeEntry) (v : Rat) (m : Nat)
    (y : Int) :
    lookupSize env (upsertSize l v m y) m y = v := by
  unfold lookupSize
  cases hf : (upsertSize l v m y).find?
      (fun e => decide (e.month = m) && decide (e.year = y)) with
  | none =>
    exfalso
    have h2 := List.find?_eq_none.mp hf
    obtain ⟨o, ho, hko⟩ := List.any_eq_true.mp (upsertSize_any l v m y)
    exact h2 o ho hko
  | some e =>
    have hmem := List.mem_of_find?_eq_some hf
    have hkey := List.find?_some hf
    simp only [Bool.and_eq_true, decide_eq_true_eq] at hkey
    exact upsertSize_key_size l v m y e hmem hkey.1 hkey.2

/-- Upserting the same value twice is the same as once. -/
theorem upsertSize_idem (l : List SizeEntry) (v : Rat) (m : Nat) (y : Int) :
    upsertSize (upsertSize l v m y) v m y = upsertSize l v m y := by
  have hany := upsertSize_any l v m y
  show (if (upsertSize l v m y).any
        (fun e => decide (e.month = m) && decide (e.year = y)) = true
      then (upsertSize l v m y).map
        (fun e => if e.month = m ∧ e.year = y then { e with size := v } else e)
      else upsertSize l v m y ++ [⟨m, y, v⟩]) = upsertSize l v m y
  rw [if_pos hany]
  apply map_id_of_mem
  intro e he
  by_cases hk : e.month = m ∧ e.year = y
  · rw [if_pos hk]
    have hs := upsertSize_key_size l v m y e he hk.1 hk.2
    cases e
    simp_all
  · rw [if_neg hk]

/-- Writing back the value just read at a key whose entry came from an
upsert leaves the state unchanged. -/
theorem setPortfolioSize_stable (env : Env) (st : LedgerState) (l : List SizeEntry)
    (u : Rat) (m : Nat) (y : Int) (h : st.sizes = upsertSize l u m y) :
    setPortfolioSize st (getPortfolioSize env st m y) m y = st := by
  unfold setPortfolioSize getPortfolioSize
  rw [h, lookupSize_upsertSize, upsertSize_idem, ← h]

/-- `find?` after replacing every record of a given id by a record that
satisfies the predicate still finds: it returns the replacement. -/
theorem find?_map_replace (p : CapitalChange → Bool) (c c2 : CapitalChange)
    (hp : p c2 = true) (hk : c2.id = c.id) :
    ∀ l : List CapitalChange, l.find? p = some c →
      (l.map (fun o => if o.id = c2.id then c2 else o)).find? p = some c2 := by
  intro l
  induction l with
  | nil =>
    intro h
    simp [List.find?] at h
  | cons x t ih =>
    intro h
    rw [List.map_cons]
    by_cases hx : x.id = c2.id
    · rw [if_pos hx]
      exact List.find?_cons_of_pos _ hp
    · rw [if_neg hx]
      cases hpx : p x with
      | true =>
        rw [List.find?_cons_of_pos _ hpx] at h
        injection h with h
        subst h
        exact absurd hk.symm hx
      | false =>
        rw [List.find?_cons_of_neg _ (by simp [hpx])] at h
        rw [List.find?_cons_of_neg _ (by simp [hpx])]
        exact ih h

/-- A net-change edit whose target record already carries exactly the
fields the edit would write, whose id-mates are all that record, and
whose month key already sits in the size store as an upsert, is a no-op
on the state (this is the second of two identical edits). -/
theorem save_noop (env : Env) (st : LedgerState) (m : Fin 12) (v : Rat)
    (c : CapitalChange)
    (hf : st.changes.find? (fun x =>
        decide (x.date.year = env.selectedYear) && decide (x.date.month = m.val)) = some c)
    (hamount : c.amount = |v|)
    (hctype : c.ctype = if 0 ≤ v then ChangeType.deposit else ChangeType.withdrawal)
    (hdate : c.date = firstOfMonth env.selectedYear m.val)
    (hdesc : c.description = editDescription)
    (hid : ∀ o ∈ st.changes, o.id = c.id → o = c)
    (hsz : ∃ l u, st.sizes = upsertSize l u m.val env.selectedYear) :
    (handleSaveAddedWithdrawn env st m v).state = st := by
  unfold handleSaveAddedWithdrawn
  by_cases h0 : adjustedStartingCapital env st m.val ≤ 0
  · rw [if_pos h0]
    rfl
  · rw [if_neg h0, hf]
    simp only [SaveResult.state]
    have hsv : signedAmount c = v := by
      by_cases h : 0 ≤ v
      · have hc : c.ctype = ChangeType.deposit := by rw [hctype, if_pos h]
        simp [signedAmount, hc, hamount, abs_of_nonneg h]
      · have hc : c.ctype = ChangeType.withdrawal := by rw [hctype, if_neg h]
        simp [signedAmount, hc, hamount, abs_of_neg (lt_of_not_le h)]
    have hcrec : ({ c with
        amount := |v|
        ctype := if 0 ≤ v then ChangeType.deposit else ChangeType.withdrawal
        date := firstOfMonth env.selectedYear m.val
        description := editDescription } : CapitalChange) = c := by
      cases c
      simp_all
    rw [hcrec, hsv, sub_self, add_zero]
    obtain ⟨l, u, hl⟩ := hsz
    rw [setPortfolioSize_stable env st l u m.val env.selectedYear hl]
    show updateCapitalChange st c = st
    unfold updateCapitalChange
    have hmap : st.changes.map (fun o => if o.id = c.id then c else o) = st.changes := by
      apply map_id_of_mem
      intro o ho
      by_cases h : o.id = c.id
      · rw [if_pos h, hid o ho h]
      · rw [if_neg h]
    rw [hmap]

/-- C4: calling the net-change edit (`setNetChange`, implemented by
`handleSaveAddedWithdrawn`) twice in succession with the same month, year
and value leaves the CapitalChangeStore and the portfolio-size anchor in
the same state as calling it once: a rejected call mutates nothing, and
an accepted second call finds the record the first call wrote, computes a
zero anchor delta, and rewrites the record with identical fields.  The
hypothesis is the store invariant that every stored id is below the next
fresh id. -/
theorem c4_idempotent (env : Env) (st : LedgerState) (m : Fin 12) (v : Rat)
    (hwf : StoreWF st) :
    (handleSaveAddedWithdrawn env
        ((handleSaveAddedWithdrawn env st m v).state) m v).state
      = (handleSaveAddedWithdrawn env st m v).state := by
  by_cases h0 : adjustedStartingCapital env st m.val ≤ 0
  · have h1 : (handleSaveAddedWithdrawn env st m v).state = st := by
      unfold handleSaveAddedWithdrawn
      rw [if_pos h0]
      rfl
    rw [h1]
    exact h1
  · cases hf : st.changes.find? (fun x =>
        decide (x.date.year = env.selectedYear) && decide (x.date.month = m.val)) with
    | none =>
      by_cases hv : v = 0
      · have h1 : (handleSaveAddedWithdrawn env st m v).state = st := by
          unfold handleSaveAddedWithdrawn
          rw [if_neg h0]
          simp only [hf]
          rw [if_neg (fun hne : v ≠ 0 => hne hv)]
          rfl
        rw [h1]
        exact h1
      · have h1 : (handleSaveAddedWithdrawn env st m v).state
            = addCapitalChange
                (setPortfolioSize st
                  (getPortfolioSize env st m.val env.selectedYear + v)
                  m.val env.selectedYear)
                (firstOfMonth env.selectedYear m.val) |v|
                (if 0 ≤ v then ChangeType.deposit else ChangeType.withdrawal)
                editDescription := by
          unfold handleSaveAddedWithdrawn
          rw [if_neg h0]
          simp only [hf]
          rw [if_pos hv]
          rfl
        rw [h1]
        refine save_noop env _ m v
          { id := st.nextId
            date := firstOfMonth env.selectedYear m.val
            amount := |v|
            ctype := if 0 ≤ v then ChangeType.deposit else ChangeType.withdrawal
            description := editDescription }
          ?_ rfl rfl rfl rfl ?_
          ⟨st.sizes, getPortfolioSize env st m.val env.selectedYear + v, rfl⟩
        · have hfind : (st.changes ++
              [({ id := st.nextId
                  date := firstOfMonth env.selectedYear m.val
                  amount := |v|
                  ctype := if 0 ≤ v then ChangeType.deposit else ChangeType.withdrawal
                  description := editDescription } : CapitalChange)]).find? (fun x =>
                decide (x.date.year = env.selectedYear) && decide (x.date.month = m.val))
              = some ({ id := st.nextId
                        date := firstOfMonth env.selectedYear m.val
                        amount := |v|
                        ctype := if 0 ≤ v then ChangeType.deposit
                          else ChangeType.withdrawal
                        description := editDescription } : CapitalChange) := by
            rw [List.find?_append, hf]
            simp [firstOfMonth]
          exact hfind
        · intro o ho hoid
          have ho2 : o ∈ st.changes ++
              [({ id := st.nextId
                  date := firstOfMonth env.selectedYear m.val
                  amount := |v|
                  ctype := if 0 ≤ v then ChangeType.deposit else ChangeType.withdrawal
                  description := editDescription } : CapitalChange)] := ho
          rcases List.mem_append.mp ho2 with h1m | h2m
          · exact absurd hoid (Nat.ne_of_lt (hwf o h1m))
          · exact List.mem_singleton.mp h2m
    | some c =>
      have h1 : (handleSaveAddedWithdrawn env st m v).state
          = updateCapitalChange
              (setPortfolioSize st
                (getPortfolioSize env st m.val env.selectedYear + (v - signedAmount c))
                m.val env.selectedYear)
              { c with
                amount := |v|
                ctype := if 0 ≤ v then ChangeType.deposit else ChangeType.withdrawal
                date := firstOfMonth env.selectedYear m.val
                description := editDescription } := by
        unfold handleSaveAddedWithdrawn
        rw [if_neg h0]
        simp only [hf]
        rfl
      rw [h1]
      refine save_noop env _ m v
        { c with
          amount := |v|
          ctype := if 0 ≤ v then ChangeType.deposit else ChangeType.withdrawal
          date := firstOfMonth env.selectedYear m.val
          description := editDescription }
        ?_ rfl rfl rfl rfl ?_
        ⟨st.sizes, getPortfolioSize env st m.val env.selectedYear + (v - signedAmount c), rfl⟩
      · exact find?_map_replace _ c
          { c with
            amount := |v|
            ctype := if 0 ≤ v then ChangeType.deposit else ChangeType.withdrawal
            date := firstOfMonth env.selectedYear m.val
            description := editDescription }
          (by simp [firstOfMonth]) rfl st.changes hf
      · intro o ho hoid
        have ho2 : o ∈ st.changes.map (fun o =>
            if o.id = ({ c with
                amount := |v|
                ctype := if 0 ≤ v then ChangeType.deposit else ChangeType.withdrawal
                date := firstOfMonth env.selectedYear m.val
                description := editDescription } : CapitalChange).id
            then { c with
                amount := |v|
                ctype := if 0 ≤ v then ChangeType.deposit else ChangeType.withdrawal
                date := firstOfMonth env.selectedYear m.val
                description := editDescription }
            else o) := ho
        obtain ⟨o2, ho2m, heq⟩ := List.mem_map.mp ho2
        by_cases h : o2.id = ({ c with
            amount := |v|
            ctype := if 0 ≤ v then ChangeType.deposit else ChangeType.withdrawal
            date := firstOfMonth env.selectedYear m.val
            description := editDescription } : CapitalChange).id
        · rw [if_pos h] at heq
          exact heq.symm
        · rw [if_neg h] at heq
          subst heq
          exact absurd hoid h

/-- C4 witness: editing January 2024 by 500 twice on the concrete inputs. -/
theorem c4_idempotent_witness :
    (handleSaveAddedWithdrawn cenv
        ((handleSaveAddedWithdrawn cenv cst 0 500).state) 0 500).state
      = (handleSaveAddedWithdrawn cenv cst 0 500).state :=
  c4_idempotent cenv cst 0 500 (by decide)

/-- The two-event cash-flow series of the solver-correctness property:
an outflow of -1000 on day 0 and an inflow of 1100 on day 365. -/
def c9Events : List (Int × Rat) := [(0, -1000), (365, 1100)]

/-- The net present value of the two-event series at the solver's initial
guess 0.1 is exactly 0 (the guess is the exact root). -/
theorem c9_npv_at_guess : npv c9Events ((1 : Real) / 10) = 0 := by
  unfold npv c9Events
  simp only [List.map_cons, List.map_nil, List.sum_cons, List.sum_nil]
  have h0 : (((0 : Int) : Real)) / 365 = 0 := by norm_num
  have h1 : (((365 : Int) : Real)) / 365 = 1 := by norm_num
  rw [h0, h1, Real.rpow_zero, Real.rpow_one]
  norm_num

/-- The solver returns exactly 0.1 on the two-event series: the series has
a sign change, and the very first Newton check finds `|f(0.1)| = 0` below
the tolerance. -/
theorem c9_solver_result : calcXIRRcore c9Events = 1 / 10 := by
  unfold calcXIRRcore
  rw [if_neg (by decide)]
  rw [show (100 : Nat) = 99 + 1 from rfl]
  rw [newtonXIRR]
  rw [if_pos]
  rw [c9_npv_at_guess]
  norm_num

/-- C9: on the two-event series (outflow 1000 at day 0, inflow 1100 at
day 365), the modelled `calcXIRR` solver returns a decimal rate within
1e-4 of 0.10, and the returned rate satisfies the NPV equation
`Σ amount_i / (1 + r) ^ (days_i / 365) ≈ 0` within the solver's 1e-6
tolerance — in fact both hold exactly: the result is 0.1 and the NPV
there is 0. -/
theorem c9_solver_correct :
    |calcXIRRcore c9Events - 1 / 10| < 1 / 10000
      ∧ |npv c9Events (calcXIRRcore c9Events)| < 1 / 1000000 := by
  constructor
  · rw [c9_solver_result]
    norm_num
  · rw [c9_solver_result, c9_npv_at_guess]
    norm_num

end Journal
